import Mathlib

/-!
Shallow embedding of `send_met_office_weather_to_pushbullet.py`: the glyph
tables, the fullwidth encoder, the weather classifier, the field formatters,
the nice-day classifier and the message-composition loop of `main`.

Python strings are modelled as `List Char` (one entry per unicode code
point, so list length is length in glyph units), Python dicts keyed by
characters as association lists, and a Python `KeyError` as `Option.none`.
-/

/-- The `FULLWIDTH_UNICODE` dict of the source: each supported ASCII
character paired with its fullwidth code point. -/
def FULLWIDTH_UNICODE : List (Char × Char) :=
  [(' ', '　'),
   ('-', '－'),
   ('0', '０'), ('1', '１'), ('2', '２'), ('3', '３'),
   ('4', '４'), ('5', '５'), ('6', '６'), ('7', '７'),
   ('8', '８'), ('9', '９'),
   ('A', 'Ａ'), ('B', 'Ｂ'), ('C', 'Ｃ'), ('D', 'Ｄ'),
   ('E', 'Ｅ'), ('F', 'Ｆ'), ('G', 'Ｇ'), ('H', 'Ｈ'),
   ('I', 'Ｉ'), ('J', 'Ｊ'), ('K', 'Ｋ'), ('L', 'Ｌ'),
   ('M', 'Ｍ'), ('N', 'Ｎ'), ('O', 'Ｏ'), ('P', 'Ｐ'),
   ('Q', 'Ｑ'), ('R', 'Ｒ'), ('S', 'Ｓ'), ('T', 'Ｔ'),
   ('U', 'Ｕ'), ('V', 'Ｖ'), ('W', 'Ｗ'), ('X', 'Ｘ'),
   ('Y', 'Ｙ'), ('Z', 'Ｚ'),
   ('a', 'ａ'), ('b', 'ｂ'), ('c', 'ｃ'), ('d', 'ｄ'),
   ('e', 'ｅ'), ('f', 'ｆ'), ('g', 'ｇ'), ('h', 'ｈ'),
   ('i', 'ｉ'), ('j', 'ｊ'), ('k', 'ｋ'), ('l', 'ｌ'),
   ('m', 'ｍ'), ('n', 'ｎ'), ('o', 'ｏ'), ('p', 'ｐ'),
   ('q', 'ｑ'), ('r', 'ｒ'), ('s', 'ｓ'), ('t', 'ｔ'),
   ('u', 'ｕ'), ('v', 'ｖ'), ('w', 'ｗ'), ('x', 'ｘ'),
   ('y', 'ｙ'), ('z', 'ｚ')]

/-- Python `FULLWIDTH_UNICODE[char]`: dict lookup, `none` models `KeyError`. -/
def fullwidthLookup (c : Char) : Option Char :=
  (FULLWIDTH_UNICODE.find? (fun p => p.1 == c)).map Prod.snd

/-- The `EMOTICONS_UNICODE` dict values (U+1F603, U+1F610, U+1F61E, U+1F62D). -/
def SMILEY_FACE_WITH_OPEN_MOUTH : List Char := [Char.ofNat 0x1F603]

def NEUTRAL_FACE : List Char := [Char.ofNat 0x1F610]

def DISAPPOINTED_FACE : List Char := [Char.ofNat 0x1F61E]

def LOUDLY_CRYING_FACE : List Char := [Char.ofNat 0x1F62D]

/-- The `ARROWS_UNICODE` dict values. -/
def RIGHTWARDS_ARROW : List Char := ['→']

def RIGHTWARDS_PAIRED_ARROWS : List Char := ['⇉']

def THREE_RIGHTWARDS_ARROWS : List Char := ['⇶']

def DEGREE_CELSIUS_UNICODE : List Char := ['℃']

/-- The `WEATHER_UNICODE` dict values. -/
def CRESCENT_MOON : List Char := [Char.ofNat 0x1F319]

def BLACK_SUN_WITH_RAYS : List Char := ['☀']

def SUN_BEHIND_CLOUD : List Char := ['⛅']

def CLOUD : List Char := ['☁']

def FOGGY : List Char := [Char.ofNat 0x1F301]

def UMBRELLA_WITH_RAIN_DROPS : List Char := ['☔']

def SNOWFLAKE : List Char := ['❄']

def THUNDER_CLOUD_AND_RAIN : List Char := ['⛈']

/-- The `MERIDIEM_UNICODE` dict values. -/
def SQUARE_AM : List Char := ['㏂']

def SQUARE_PM : List Char := ['㏘']

/-- Python `str.rjust(w)`: left-pad with ASCII spaces to width `w`. -/
def rjust (s : List Char) (w : Nat) : List Char :=
  List.replicate (w - s.length) ' ' ++ s

/-- A loop that applies a fallible function to every element in order,
collecting the results and propagating the first failure (a raised Python
exception). -/
def mapOption {α β : Type} (f : α → Option β) : List α → Option (List β)
  | [] => some []
  | a :: l =>
    match f a, mapOption f l with
    | some b, some bs => some (b :: bs)
    | _, _ => none

/-- `string_to_fullwidth(string, rjustlen=0)` of the source: right-justify
when `rjustlen > 0`, then translate every character through
`FULLWIDTH_UNICODE`; an unsupported character (Python `KeyError`) is `none`. -/
def string_to_fullwidth (s : List Char) (rjustlen : Nat) : Option (List Char) :=
  mapOption fullwidthLookup (if rjustlen > 0 then rjust s rjustlen else s)

/-- `get_am_pm(time)` of the source, on the hour of the time. -/
def get_am_pm (hour : Nat) : List Char :=
  if hour < 12 then SQUARE_AM else SQUARE_PM

/-- `get_weather_icon(weather_type)` of the source.  The `WEATHER_TYPES`
codes are inlined: `clear_night = [0]`, `sun = [1]`, `sun_cloud = [3]`,
`cloud = [2, 7, 8]`, `fog = [5, 6]`, `rain = range(9, 21)`,
`snow = range(22, 27)`, `thunder = range(28, 30)`. -/
def get_weather_icon (weather_type : Int) : List Char :=
  if weather_type ∈ [(0 : Int)] then CRESCENT_MOON
  else if weather_type ∈ [(1 : Int)] then BLACK_SUN_WITH_RAYS
  else if weather_type ∈ [(3 : Int)] then SUN_BEHIND_CLOUD
  else if weather_type ∈ [(2 : Int), 7, 8] then CLOUD
  else if weather_type ∈ [(5 : Int), 6] then FOGGY
  else if 9 ≤ weather_type ∧ weather_type < 21 then UMBRELLA_WITH_RAIN_DROPS
  else if 22 ≤ weather_type ∧ weather_type < 27 then SNOWFLAKE
  else if 28 ≤ weather_type ∧ weather_type < 30 then THUNDER_CLOUD_AND_RAIN
  else CLOUD

/-- Fuelled helper for the decimal digits of a natural number, most
significant first; fuel `n + 1` always suffices. -/
def str_of_nat_aux : Nat → Nat → List Char → List Char
  | 0, _, acc => acc
  | fuel + 1, n, acc =>
    let acc2 := Char.ofNat (48 + n % 10) :: acc
    if n < 10 then acc2 else str_of_nat_aux fuel (n / 10) acc2

/-- Python `str(n)` for a natural number: its decimal digits. -/
def str_of_nat (n : Nat) : List Char :=
  str_of_nat_aux (n + 1) n []

/-- Python `str(i)` for an `int`: decimal digits, preceded by a minus sign
when negative. -/
def str_of_int : Int → List Char
  | Int.ofNat m => str_of_nat m
  | Int.negSucc m => '-' :: str_of_nat (m + 1)

/-- `get_temperature(temperature)` of the source: the temperature
fullwidth-encoded right-justified to width 3, then the degree-Celsius
glyph. -/
def get_temperature (temperature : Int) : Option (List Char) :=
  (string_to_fullwidth (str_of_int temperature) 3).map
    (fun s => s ++ DEGREE_CELSIUS_UNICODE)

/-- `get_wind_speed(speed)` of the source: an arrow glyph chosen by wind
band, then the speed fullwidth-encoded right-justified to width 2, then the
ASCII literal `"mph"`. -/
def get_wind_speed (speed : Int) : Option (List Char) :=
  let wind_speed :=
    if speed < 10 then RIGHTWARDS_ARROW
    else if speed < 20 then RIGHTWARDS_PAIRED_ARROWS
    else THREE_RIGHTWARDS_ARROWS
  (string_to_fullwidth (str_of_int speed) 2).map
    (fun s => wind_speed ++ s ++ ['m', 'p', 'h'])

/-- One forecast record, the fields of the dicts built by
`get_met_office_3hourly_forecast` that the composition loop reads.  The
`from` datetime is abstracted to the two projections the code applies to
it: its weekday abbreviation (three letters) and its hour. -/
structure Forecast where
  period : Int
  weekday_abbrev : List Char
  from_hour : Nat
  weather_type : Int
  temperature_c : Int
  wind_speed_mph : Int
  rain_probability_pc : Int
deriving DecidableEq

/-- `nice_weather_types` of `calc_nice_day_emoticon`: clear night, sunny
day, partly cloudy night/day, cloudy. -/
def nice_weather_types : List Int := [0, 1, 2, 3, 7]

/-- The `for i, forecast in enumerate(reversed(recent_forecasts))` loop of
`calc_nice_day_emoticon`, with `i` the accumulated position counter. -/
def calcLoop : Nat → List Forecast → List Char
  | _, [] => SMILEY_FACE_WITH_OPEN_MOUTH
  | i, forecast :: rest =>
    if ¬(forecast.weather_type ∈ nice_weather_types ∧
         forecast.wind_speed_mph ≤ 15 ∧
         forecast.rain_probability_pc ≤ 20) then
      if i ≤ 1 then LOUDLY_CRYING_FACE else NEUTRAL_FACE
    else calcLoop (i + 1) rest

/-- `calc_nice_day_emoticon(current_index, forecasts)` of the source.  The
Python slice `forecasts[max(current_index - 3, 0):current_index + 1]` is
`(forecasts.take (current_index + 1)).drop (current_index - 3)`, the index
being a list position (the call site passes the `enumerate` index). -/
def calc_nice_day_emoticon (current_index : Nat) (forecasts : List Forecast) : List Char :=
  let recent_forecasts := (forecasts.take (current_index + 1)).drop (current_index - 3)
  calcLoop 0 recent_forecasts.reverse

/-- Python `str.upper()` on one ASCII character. -/
def upperChar (c : Char) : Char :=
  if 'a' ≤ c ∧ c ≤ 'z' then Char.ofNat (c.toNat - 32) else c

/-- One iteration body of the `main` loop for a selected forecast: the
weekday abbreviation uppercased and fullwidth-encoded, the meridiem glyph,
the nice-day emoticon, the weather icon, the temperature and the wind
speed, concatenated; `none` models a propagated `KeyError`. -/
def compose_line (i : Nat) (forecast : Forecast) (forecasts : List Forecast) : Option (List Char) :=
  match string_to_fullwidth (forecast.weekday_abbrev.map upperChar) 0,
        get_temperature forecast.temperature_c,
        get_wind_speed forecast.wind_speed_mph with
  | some day, some temp, some wind =>
    some (day ++ get_am_pm forecast.from_hour ++
          calc_nice_day_emoticon i forecasts ++
          get_weather_icon forecast.weather_type ++
          temp ++ wind)
  | _, _, _ => none

/-- The `for i, forecast in enumerate(forecasts)` loop of `main` building
`body`: records with period 4 or 5 are selected, and `'\n'` is appended
before every line but the first. -/
def compose_body_go (forecasts : List Forecast) : Nat → List Forecast → List Char → Option (List Char)
  | _, [], body => some body
  | i, forecast :: rest, body =>
    if forecast.period = 4 ∨ forecast.period = 5 then
      match compose_line i forecast forecasts with
      | none => none
      | some line =>
        compose_body_go forecasts (i + 1) rest
          (body ++ (if body = [] then [] else ['\n']) ++ line)
    else compose_body_go forecasts (i + 1) rest body

/-- The `body` string that `main` composes and hands to the notification
sink. -/
def compose_body (forecasts : List Forecast) : Option (List Char) :=
  compose_body_go forecasts 0 forecasts []

/-!
Specification-side definitions, written from the specification's words, to
be compared with the definitions above.
-/

/-- The supported alphabet of the Fullwidth Encoder as the spec words it:
uppercase and lowercase ASCII letters, digits 0-9, space, hyphen. -/
def supportedChars : List Char :=
  "ABCDEFGHIJKLMNOPQRSTUVWXYZabcdefghijklmnopqrstuvwxyz0123456789 -".toList

/-- The three reachable emotion levels of the spec's Nice-Day Classifier. -/
inductive EmotionLevel where
  | happy
  | neutral
  | sad
deriving DecidableEq

/-- The spec's "nice" test: weather type code in {0, 1, 2, 3, 7}, wind
speed at most 15, rain probability at most 20. -/
def niceSpec (f : Forecast) : Bool :=
  decide (f.weather_type = 0 ∨ f.weather_type = 1 ∨ f.weather_type = 2 ∨
          f.weather_type = 3 ∨ f.weather_type = 7) &&
  decide (f.wind_speed_mph ≤ 15) &&
  decide (f.rain_probability_pc ≤ 20)

/-- The spec's Nice-Day Classifier: scan the window
`forecasts[max(index-3, 0) .. index]` in reverse chronological order for
the first record that is not nice, with a position counter starting at 0;
`Sad` when it fails at position 0 or 1, `Neutral` when further back, and
`Happy` when every record in the window is nice. -/
def classifySpec (index : Nat) (forecasts : List Forecast) : EmotionLevel :=
  let window := (forecasts.take (index + 1)).drop (index - 3)
  match window.reverse.findIdx? (fun f => ! niceSpec f) with
  | none => EmotionLevel.happy
  | some i => if i ≤ 1 then EmotionLevel.sad else EmotionLevel.neutral

/-- The emoticon glyph the source prints for each emotion level. -/
def emoticonOf : EmotionLevel → List Char
  | EmotionLevel.happy => SMILEY_FACE_WITH_OPEN_MOUTH
  | EmotionLevel.neutral => NEUTRAL_FACE
  | EmotionLevel.sad => LOUDLY_CRYING_FACE

/-- The spec's Weather Classifier partition: `{0}` clear-night, `{1}` sun,
`{3}` sun-cloud, `{2,7,8}` cloud, `{5,6}` fog, `[9,21)` rain, `[22,27)`
snow, `[28,30)` thunder, everything else the cloud icon. -/
def iconForSpec (w : Int) : List Char :=
  if w = 0 then CRESCENT_MOON
  else if w = 1 then BLACK_SUN_WITH_RAYS
  else if w = 3 then SUN_BEHIND_CLOUD
  else if w = 2 ∨ w = 7 ∨ w = 8 then CLOUD
  else if w = 5 ∨ w = 6 then FOGGY
  else if 9 ≤ w ∧ w < 21 then UMBRELLA_WITH_RAIN_DROPS
  else if 22 ≤ w ∧ w < 27 then SNOWFLAKE
  else if 28 ≤ w ∧ w < 30 then THUNDER_CLOUD_AND_RAIN
  else CLOUD

/-- A weather type code that falls in one of the listed categories of the
spec's partition (everything outside them is the fallback cloud). -/
def listedCategory (w : Int) : Prop :=
  w = 0 ∨ w = 1 ∨ w = 3 ∨ w = 2 ∨ w = 7 ∨ w = 8 ∨ w = 5 ∨ w = 6 ∨
  (9 ≤ w ∧ w < 21) ∨ (22 ≤ w ∧ w < 27) ∨ (28 ≤ w ∧ w < 30)

/-- The lines of the spec's Forecast Selector: records whose period index
is 4 or 5, in sequence order, each rendered by the Line Composer. -/
def selected_lines (forecasts : List Forecast) : Option (List (List Char)) :=
  mapOption (fun p => compose_line p.1 p.2 forecasts)
    (forecasts.enum.filter (fun p => p.2.period = 4 ∨ p.2.period = 5))

/-- The spec's join: lines joined by a single newline, with no trailing
newline, and the empty string for no lines. -/
def joinLines : List (List Char) → List Char
  | [] => []
  | [l] => l
  | l :: ls => l ++ '\n' :: joinLines ls

/-- A forecast record that fails the nice test (rain shower, wind 25 mph,
rain probability 80) in a period-4 slot. -/
def badForecast : Forecast :=
  ⟨4, ['M', 'o', 'n'], 9, 9, 10, 25, 80⟩

/-- A forecast record that passes the nice test (sunny, wind 5 mph, rain
probability 5) in a period-4 slot. -/
def niceForecast : Forecast :=
  ⟨4, ['M', 'o', 'n'], 9, 1, 20, 5, 5⟩

/-!
Helper lemmas.
-/

lemma niceSpec_iff (f : Forecast) :
    niceSpec f = true ↔
      (f.weather_type ∈ nice_weather_types ∧ f.wind_speed_mph ≤ 15 ∧
       f.rain_probability_pc ≤ 20) := by
  simp [niceSpec, nice_weather_types, and_assoc]

lemma calcLoop_findIdx (l : List Forecast) : ∀ k : Nat,
    calcLoop k l =
      match List.findIdx? (fun f => ! niceSpec f) l k with
      | none => SMILEY_FACE_WITH_OPEN_MOUTH
      | some j => if j ≤ 1 then LOUDLY_CRYING_FACE else NEUTRAL_FACE := by
  induction l with
  | nil => intro k; simp [calcLoop, List.findIdx?_nil]
  | cons f rest ih =>
    intro k
    rw [calcLoop, List.findIdx?_cons]
    by_cases h : niceSpec f = true
    · rw [if_neg (not_not.mpr ((niceSpec_iff f).mp h)), if_neg (by simp [h]),
        ih (k + 1)]
    · have hb : (!niceSpec f) = true := by simp_all
      have hc : ¬(f.weather_type ∈ nice_weather_types ∧ f.wind_speed_mph ≤ 15 ∧
          f.rain_probability_pc ≤ 20) :=
        fun hcon => h ((niceSpec_iff f).mpr hcon)
      rw [if_pos hc, if_pos hb]

/-- C1: the Nice-Day Classifier inspects the window
`forecasts[max(index-3, 0) .. index]` in reverse chronological order with a
position counter starting at 0; on the first record failing the nice test
(type in {0,1,2,3,7}, wind <= 15, rain <= 20) it returns Sad when the
counter is at most 1 and Neutral otherwise, and Happy when every record in
the window is nice; in particular at index 0 a failing record yields Sad. -/
theorem nice_day_classifier_refines_spec :
    (∀ (index : Nat) (forecasts : List Forecast),
      calc_nice_day_emoticon index forecasts =
        emoticonOf (classifySpec index forecasts)) ∧
    (∀ (f : Forecast) (fs : List Forecast), niceSpec f = false →
      calc_nice_day_emoticon 0 (f :: fs) = LOUDLY_CRYING_FACE) := by
  constructor
  · intro index forecasts
    simp only [calc_nice_day_emoticon, classifySpec]
    rw [calcLoop_findIdx]
    cases h : List.findIdx? (fun f => ! niceSpec f)
        (((forecasts.take (index + 1)).drop (index - 3)).reverse) 0 with
    | none => simp [emoticonOf]
    | some j =>
      by_cases hj : j ≤ 1
      · simp [emoticonOf, hj]
      · simp [emoticonOf, hj]
  · intro f fs h
    have hc : ¬(f.weather_type ∈ nice_weather_types ∧ f.wind_speed_mph ≤ 15 ∧
        f.rain_probability_pc ≤ 20) := by
      rw [← niceSpec_iff, h]; simp
    simp [calc_nice_day_emoticon, calcLoop, hc]

/-- Witness for C1: a concrete not-nice record at index 0 yields the Sad
glyph. -/
theorem nice_day_classifier_refines_spec_witness :
    niceSpec badForecast = false ∧
    calc_nice_day_emoticon 0 [badForecast] = LOUDLY_CRYING_FACE :=
  ⟨by decide, nice_day_classifier_refines_spec.2 badForecast [] (by decide)⟩

/-- C4 (counterexample): the fourth, most-negative emoticon glyph of
`EMOTICONS_UNICODE` (the loudly crying face) is reached: a not-nice record
at index 0 makes the classifier return exactly it, and it is distinct from
the other three glyphs. -/
theorem nice_day_fourth_glyph_reached :
    calc_nice_day_emoticon 0 [badForecast] = LOUDLY_CRYING_FACE ∧
    LOUDLY_CRYING_FACE ≠ SMILEY_FACE_WITH_OPEN_MOUTH ∧
    LOUDLY_CRYING_FACE ≠ NEUTRAL_FACE ∧
    LOUDLY_CRYING_FACE ≠ DISAPPOINTED_FACE := by
  decide

/-- C4 (amended): the classifier's result is always one of exactly three of
the four defined emoticon glyphs, namely the smiley, neutral and loudly
crying faces; the unreachable glyph is the disappointed face (the third
listed), not the most-negative one. -/
theorem nice_day_three_reachable_glyphs :
    ∀ (index : Nat) (forecasts : List Forecast),
      (calc_nice_day_emoticon index forecasts = SMILEY_FACE_WITH_OPEN_MOUTH ∨
       calc_nice_day_emoticon index forecasts = NEUTRAL_FACE ∨
       calc_nice_day_emoticon index forecasts = LOUDLY_CRYING_FACE) ∧
      calc_nice_day_emoticon index forecasts ≠ DISAPPOINTED_FACE := by
  intro index forecasts
  simp only [calc_nice_day_emoticon]
  rw [calcLoop_findIdx]
  cases h : List.findIdx? (fun f => ! niceSpec f)
      (((forecasts.take (index + 1)).drop (index - 3)).reverse) 0 with
  | none => exact ⟨Or.inl rfl, by decide⟩
  | some j =>
    by_cases hj : j ≤ 1
    · exact ⟨Or.inr (Or.inr (by simp [hj])), by simp [hj]; decide⟩
    · exact ⟨Or.inr (Or.inl (by simp [hj])), by simp [hj]; decide⟩

/-- C10: the Nice-Day Classifier's result depends only on the records at
positions `max(index-3, 0)` through `index`: two forecast sequences that
agree there classify identically. -/
theorem nice_day_window_extensional :
    ∀ (index : Nat) (f1 f2 : List Forecast),
      (∀ j : Nat, index - 3 ≤ j → j ≤ index → f1[j]? = f2[j]?) →
      calc_nice_day_emoticon index f1 = calc_nice_day_emoticon index f2 := by
  intro index f1 f2 hagree
  have hslice : (f1.take (index + 1)).drop (index - 3) =
      (f2.take (index + 1)).drop (index - 3) := by
    apply List.ext_getElem?
    intro k
    rw [List.getElem?_drop, List.getElem?_drop, List.getElem?_take,
      List.getElem?_take]
    by_cases hk : index - 3 + k < index + 1
    · rw [if_pos hk, if_pos hk]
      exact hagree (index - 3 + k) (Nat.le_add_right _ _) (by omega)
    · rw [if_neg hk, if_neg hk]
  simp only [calc_nice_day_emoticon]
  rw [hslice]

/-- Witness for C10: appending a record beyond the window does not change
the classification at index 0. -/
theorem nice_day_window_extensional_witness :
    calc_nice_day_emoticon 0 [niceForecast] =
      calc_nice_day_emoticon 0 [niceForecast, badForecast] :=
  nice_day_window_extensional 0 [niceForecast] [niceForecast, badForecast]
    (by
      intro j h1 h2
      interval_cases j
      rfl)

lemma fullwidth_keys_perm :
    (FULLWIDTH_UNICODE.map Prod.fst).Perm supportedChars := by
  decide

lemma fullwidthLookup_eq_none_iff (c : Char) :
    fullwidthLookup c = none ↔ c ∉ supportedChars := by
  unfold fullwidthLookup
  rw [Option.map_eq_none', List.find?_eq_none]
  constructor
  · intro h hc
    obtain ⟨p, hp, hpc⟩ :=
      List.mem_map.mp (fullwidth_keys_perm.mem_iff.mpr hc)
    exact h p hp (by simp [hpc])
  · intro hc p hp
    simp only [beq_iff_eq]
    intro hpc
    exact hc (fullwidth_keys_perm.mem_iff.mp (List.mem_map.mpr ⟨p, hp, hpc⟩))

lemma fullwidthLookup_isSome {c : Char} (h : c ∈ supportedChars) :
    (fullwidthLookup c).isSome := by
  cases hl : fullwidthLookup c with
  | none => exact absurd h ((fullwidthLookup_eq_none_iff c).mp hl)
  | some d => rfl

lemma mapOption_some_of_forall {α β : Type} (f : α → Option β) :
    ∀ l : List α, (∀ a ∈ l, (f a).isSome) →
      ∃ r, mapOption f l = some r ∧ r.length = l.length := by
  intro l
  induction l with
  | nil => intro _; exact ⟨[], rfl, rfl⟩
  | cons a l ih =>
    intro h
    obtain ⟨b, hb⟩ := Option.isSome_iff_exists.mp (h a (List.mem_cons_self a l))
    obtain ⟨r, hr, hrl⟩ := ih (fun x hx => h x (List.mem_cons_of_mem a hx))
    exact ⟨b :: r, by rw [mapOption, hb, hr], by simp [hrl]⟩

lemma mapOption_none_of_mem {α β : Type} (f : α → Option β) :
    ∀ (l : List α) (a : α), a ∈ l → f a = none → mapOption f l = none := by
  intro l
  induction l with
  | nil => intro a ha; exact absurd ha (List.not_mem_nil a)
  | cons x l ih =>
    intro a ha hfa
    rw [mapOption]
    rcases List.mem_cons.mp ha with rfl | hmem
    · rw [hfa]
    · rw [ih a hmem hfa]
      cases f x <;> rfl

lemma mapOption_mem {α β : Type} (f : α → Option β) :
    ∀ (l : List α) (r : List β), mapOption f l = some r →
      ∀ b ∈ r, ∃ a ∈ l, f a = some b := by
  intro l
  induction l with
  | nil =>
    intro r hr b hb
    cases hr
    exact absurd hb (List.not_mem_nil b)
  | cons x l ih =>
    intro r hr b hb
    rw [mapOption] at hr
    cases hx : f x with
    | none => rw [hx] at hr; cases hr
    | some c =>
      cases hl : mapOption f l with
      | none => rw [hx, hl] at hr; cases hr
      | some cs =>
        rw [hx, hl] at hr
        cases hr
        rcases List.mem_cons.mp hb with rfl | hmem
        · exact ⟨x, List.mem_cons_self x l, hx⟩
        · obtain ⟨a, ha, hfa⟩ := ih cs hl b hmem
          exact ⟨a, List.mem_cons_of_mem x ha, hfa⟩

/-- C6: the Fullwidth Encoder fails (a `KeyError`, the spec's
`UnsupportedCharacter`) exactly when the input contains a character outside
the supported set of uppercase and lowercase ASCII letters, digits, space
and hyphen; a string of only supported characters always encodes. -/
theorem fullwidth_encoder_rejects_iff_unsupported :
    ∀ (s : List Char) (rjustlen : Nat),
      string_to_fullwidth s rjustlen = none ↔
        ∃ c ∈ s, c ∉ supportedChars := by
  intro s rl
  unfold string_to_fullwidth
  constructor
  · intro h
    by_contra hno
    push_neg at hno
    have hall : ∀ c ∈ (if rl > 0 then rjust s rl else s),
        (fullwidthLookup c).isSome := by
      intro c hc
      apply fullwidthLookup_isSome
      by_cases hp : rl > 0
      · rw [if_pos hp, rjust] at hc
        rcases List.mem_append.mp hc with hrep | hs
        · rw [List.eq_of_mem_replicate hrep]
          decide
        · exact hno c hs
      · rw [if_neg hp] at hc
        exact hno c hc
    obtain ⟨r, hr, _⟩ :=
      mapOption_some_of_forall fullwidthLookup _ hall
    rw [h] at hr
    cases hr
  · rintro ⟨c, hc, hcs⟩
    apply mapOption_none_of_mem fullwidthLookup _ c _
      ((fullwidthLookup_eq_none_iff c).mpr hcs)
    split
    · exact List.mem_append.mpr (Or.inr hc)
    · exact hc

/-- Witness for C6: a string containing the unsupported character yields
the failure, and a supported-only string encodes. -/
theorem fullwidth_encoder_rejects_iff_unsupported_witness :
    string_to_fullwidth ['h', 'i', '!'] 0 = none :=
  (fullwidth_encoder_rejects_iff_unsupported ['h', 'i', '!'] 0).mpr
    ⟨'!', by decide, by decide⟩

/-- C7: for a string of supported characters and any width at least its
length, the encoder succeeds and its output has exactly that width in
glyph units (one fullwidth code point per padded input character). -/
theorem fullwidth_encoder_width :
    ∀ (s : List Char) (w : Nat), (∀ c ∈ s, c ∈ supportedChars) →
      s.length ≤ w →
      ∃ t, string_to_fullwidth s w = some t ∧ t.length = w := by
  intro s w hsup hlen
  unfold string_to_fullwidth
  by_cases hw : w > 0
  · rw [if_pos hw]
    have hall : ∀ c ∈ rjust s w, (fullwidthLookup c).isSome := by
      intro c hc
      apply fullwidthLookup_isSome
      rcases List.mem_append.mp hc with hrep | hs
      · rw [List.eq_of_mem_replicate hrep]
        decide
      · exact hsup c hs
    obtain ⟨t, ht, htl⟩ :=
      mapOption_some_of_forall fullwidthLookup _ hall
    refine ⟨t, ht, ?_⟩
    rw [htl]
    simp only [rjust, List.length_append, List.length_replicate]
    omega
  · rw [if_neg hw]
    have hs0 : s = [] := List.length_eq_zero.mp (by omega)
    subst hs0
    exact ⟨[], rfl, by omega⟩

/-- Witness for C7: encoding a 2-character supported string at width 5
gives a 5-glyph output. -/
theorem fullwidth_encoder_width_witness :
    ∃ t, string_to_fullwidth ['a', 'b'] 5 = some t ∧ t.length = 5 :=
  fullwidth_encoder_width ['a', 'b'] 5 (by decide) (by decide)

lemma str_of_nat_aux_supported : ∀ (fuel n : Nat) (acc : List Char),
    (∀ c ∈ acc, c ∈ supportedChars) →
    ∀ c ∈ str_of_nat_aux fuel n acc, c ∈ supportedChars := by
  intro fuel
  induction fuel with
  | zero => intro n acc hacc c hc; exact hacc c hc
  | succ fuel ih =>
    intro n acc hacc c hc
    have hdig : Char.ofNat (48 + n % 10) ∈ supportedChars := by
      have h10 : n % 10 < 10 := Nat.mod_lt n (by omega)
      generalize hm : n % 10 = m at h10 ⊢
      interval_cases m <;> decide
    have hacc2 : ∀ c ∈ Char.ofNat (48 + n % 10) :: acc, c ∈ supportedChars := by
      intro c hc2
      rcases List.mem_cons.mp hc2 with rfl | hmem
      · exact hdig
      · exact hacc c hmem
    simp only [str_of_nat_aux] at hc
    split at hc
    · exact hacc2 c hc
    · exact ih (n / 10) _ hacc2 c hc

lemma str_of_int_supported (i : Int) :
    ∀ c ∈ str_of_int i, c ∈ supportedChars := by
  cases i with
  | ofNat m => exact str_of_nat_aux_supported (m + 1) m [] (by simp)
  | negSucc m =>
    intro c hc
    rcases List.mem_cons.mp hc with rfl | h
    · decide
    · exact str_of_nat_aux_supported (m + 2) (m + 1) [] (by simp) c h

lemma string_to_fullwidth_some_of_supported (s : List Char) (w : Nat)
    (h : ∀ c ∈ s, c ∈ supportedChars) :
    ∃ t, string_to_fullwidth s w = some t := by
  unfold string_to_fullwidth
  have hall : ∀ c ∈ (if w > 0 then rjust s w else s),
      (fullwidthLookup c).isSome := by
    intro c hc
    apply fullwidthLookup_isSome
    by_cases hp : w > 0
    · rw [if_pos hp, rjust] at hc
      rcases List.mem_append.mp hc with hrep | hs
      · rw [List.eq_of_mem_replicate hrep]
        decide
      · exact h c hs
    · rw [if_neg hp] at hc
      exact h c hc
  obtain ⟨t, ht, _⟩ := mapOption_some_of_forall fullwidthLookup _ hall
  exact ⟨t, ht⟩

/-- C8: for every integer wind speed the formatter succeeds, picks the
single arrow iff mph < 10, the double arrow iff 10 <= mph < 20 and the
triple arrow iff mph >= 20, then appends the fullwidth-encoded decimal
right-justified to width 2 and the plain ASCII suffix `mph`; the band
boundary examples 9, 10, 19, 20 evaluate as the spec states. -/
theorem wind_speed_format :
    (∀ mph : Int, ∃ digits,
      string_to_fullwidth (str_of_int mph) 2 = some digits ∧
      get_wind_speed mph = some
        ((if mph < 10 then RIGHTWARDS_ARROW
          else if 10 ≤ mph ∧ mph < 20 then RIGHTWARDS_PAIRED_ARROWS
          else THREE_RIGHTWARDS_ARROWS) ++ digits ++ ['m', 'p', 'h'])) ∧
    get_wind_speed 9 =
      some (RIGHTWARDS_ARROW ++ ['　', '９'] ++ ['m', 'p', 'h']) ∧
    get_wind_speed 10 =
      some (RIGHTWARDS_PAIRED_ARROWS ++ ['１', '０'] ++ ['m', 'p', 'h']) ∧
    get_wind_speed 19 =
      some (RIGHTWARDS_PAIRED_ARROWS ++ ['１', '９'] ++ ['m', 'p', 'h']) ∧
    get_wind_speed 20 =
      some (THREE_RIGHTWARDS_ARROWS ++ ['２', '０'] ++ ['m', 'p', 'h']) := by
  refine ⟨?_, by decide, by decide, by decide, by decide⟩
  intro mph
  obtain ⟨digits, hd⟩ := string_to_fullwidth_some_of_supported
    (str_of_int mph) 2 (str_of_int_supported mph)
  refine ⟨digits, hd, ?_⟩
  simp only [get_wind_speed]
  rw [hd]
  simp only [Option.map_some', Option.some.injEq]
  by_cases h10 : mph < 10
  · rw [if_pos h10, if_pos h10]
  · rw [if_neg h10]
    by_cases h20 : mph < 20
    · rw [if_pos h20, if_neg h10, if_pos (by omega : 10 ≤ mph ∧ mph < 20)]
    · rw [if_neg h20, if_neg h10, if_neg (by omega :
        ¬(10 ≤ mph ∧ mph < 20))]

/-- The `body` accumulator discipline of the `main` loop: append each line
after a newline separator unless the accumulator is still empty. -/
def joinAcc : List Char → List (List Char) → List Char
  | body, [] => body
  | body, l :: ls => joinAcc (body ++ (if body = [] then [] else ['\n']) ++ l) ls

lemma mapOption_cons_fails {α β : Type} (f : α → Option β) (a : α)
    (l : List α) (ha : f a = none) : mapOption f (a :: l) = none := by
  rw [mapOption, ha]

lemma mapOption_cons_tail_fails {α β : Type} (f : α → Option β) (a : α)
    (l : List α) (b : β) (ha : f a = some b)
    (hl : mapOption f l = none) : mapOption f (a :: l) = none := by
  rw [mapOption, ha, hl]

lemma mapOption_cons_somes {α β : Type} (f : α → Option β) (a : α)
    (l : List α) (b : β) (bs : List β) (ha : f a = some b)
    (hl : mapOption f l = some bs) :
    mapOption f (a :: l) = some (b :: bs) := by
  rw [mapOption, ha, hl]

lemma compose_body_go_eq (F : List Forecast) :
    ∀ (rest : List Forecast) (i : Nat) (body : List Char),
      compose_body_go F i rest body =
        (mapOption (fun p => compose_line p.1 p.2 F)
          ((rest.enumFrom i).filter
            (fun p => p.2.period = 4 ∨ p.2.period = 5))).map
          (fun ls => joinAcc body ls) := by
  intro rest
  induction rest with
  | nil => intro i body; rfl
  | cons f rest ih =>
    intro i body
    rw [compose_body_go, List.enumFrom_cons]
    by_cases hsel : f.period = 4 ∨ f.period = 5
    · rw [if_pos hsel, List.filter_cons_of_pos (by simp [hsel])]
      cases hline : compose_line i f F with
      | none =>
        rw [mapOption_cons_fails (fun p => compose_line p.1 p.2 F) (i, f)
          _ hline]
        rfl
      | some line =>
        have hred : (match some line with
            | none => none
            | some line => compose_body_go F (i + 1) rest
                ((body ++ if body = [] then [] else ['\n']) ++ line)) =
            compose_body_go F (i + 1) rest
              ((body ++ if body = [] then [] else ['\n']) ++ line) := rfl
        rw [hred, ih (i + 1) ((body ++ if body = [] then [] else ['\n']) ++ line)]
        cases hrest : mapOption (fun p => compose_line p.1 p.2 F)
            ((List.enumFrom (i + 1) rest).filter
              (fun p => p.2.period = 4 ∨ p.2.period = 5)) with
        | none =>
          rw [mapOption_cons_tail_fails (fun p => compose_line p.1 p.2 F)
            (i, f) _ line hline hrest]
          rfl
        | some ls =>
          rw [mapOption_cons_somes (fun p => compose_line p.1 p.2 F)
            (i, f) _ line ls hline hrest, Option.map_some', Option.map_some',
            joinAcc]
    · rw [if_neg hsel, List.filter_cons_of_neg (by simp [hsel]), ih (i + 1) body]

lemma get_am_pm_length (hour : Nat) : (get_am_pm hour).length = 1 := by
  unfold get_am_pm SQUARE_AM SQUARE_PM
  split <;> rfl

lemma compose_line_ne_nil (i : Nat) (f : Forecast) (F : List Forecast)
    (l : List Char) (h : compose_line i f F = some l) : l ≠ [] := by
  unfold compose_line at h
  split at h
  · injection h with h2
    subst h2
    intro hnil
    have hlen := congrArg List.length hnil
    simp only [List.length_append, get_am_pm_length, List.length_nil] at hlen
    omega
  · simp at h

lemma joinAcc_eq_joinLines_cons :
    ∀ (ls : List (List Char)) (body : List Char), body ≠ [] →
      joinAcc body ls = joinLines (body :: ls) := by
  intro ls
  induction ls with
  | nil => intro body hb; rfl
  | cons x xs ih =>
    intro body hb
    rw [joinAcc, if_neg hb, ih (body ++ ['\n'] ++ x) (by simp)]
    cases xs with
    | nil => simp [joinLines]
    | cons y ys => simp [joinLines, List.append_assoc]

lemma joinAcc_nil_eq (ls : List (List Char)) (h : ∀ l ∈ ls, l ≠ []) :
    joinAcc [] ls = joinLines ls := by
  cases ls with
  | nil => rfl
  | cons l ls2 =>
    rw [joinAcc, if_pos rfl]
    simp only [List.nil_append]
    exact joinAcc_eq_joinLines_cons ls2 l (h l (List.mem_cons_self l ls2))

/-- C5: the composed body selects exactly the records with period index 4
or 5 in sequence order, renders one line per selected record, and joins
the lines with single newlines and no trailing newline; with no selected
record (the empty sequence included) the body is the empty string. -/
theorem compose_message_selects_and_joins :
    (∀ forecasts : List Forecast,
      compose_body forecasts = (selected_lines forecasts).map joinLines) ∧
    (∀ forecasts : List Forecast,
      (∀ f ∈ forecasts, ¬(f.period = 4 ∨ f.period = 5)) →
      compose_body forecasts = some []) := by
  have hmain : ∀ forecasts : List Forecast,
      compose_body forecasts = (selected_lines forecasts).map joinLines := by
    intro F
    rw [compose_body, compose_body_go_eq F F 0 [], selected_lines,
      show F.enum = List.enumFrom 0 F from rfl]
    cases hsel : mapOption (fun p => compose_line p.1 p.2 F)
        ((List.enumFrom 0 F).filter
          (fun p => p.2.period = 4 ∨ p.2.period = 5)) with
    | none => rfl
    | some ls =>
      simp only [Option.map_some']
      congr 1
      apply joinAcc_nil_eq
      intro l hl
      obtain ⟨p, hp, hfp⟩ := mapOption_mem _ _ _ hsel l hl
      exact compose_line_ne_nil p.1 p.2 F l hfp
  refine ⟨hmain, ?_⟩
  intro F hnone
  rw [hmain F]
  have hfilter : (F.enum.filter
      (fun p => p.2.period = 4 ∨ p.2.period = 5)) = [] := by
    rw [List.filter_eq_nil_iff]
    intro p hp
    obtain ⟨-, -, hx⟩ := List.mem_enumFrom hp
    simp only [decide_eq_true_eq]
    rw [hx]
    exact hnone _ (List.getElem_mem _)
  rw [selected_lines, hfilter]
  rfl

/-- Witness for C5: a sequence whose only record has period 1 composes to
the empty body. -/
theorem compose_message_selects_and_joins_witness :
    compose_body [⟨1, ['M', 'o', 'n'], 9, 1, 20, 5, 5⟩] = some [] :=
  compose_message_selects_and_joins.2
    [⟨1, ['M', 'o', 'n'], 9, 1, 20, 5, 5⟩] (by decide)

/-- C2: the Weather Classifier realises exactly the spec's partition
(`{0}` clear-night, `{1}` sun, `{3}` sun-cloud, `{2,7,8}` cloud, `{5,6}`
fog, `[9,21)` rain, `[22,27)` snow, `[28,30)` thunder, cloud otherwise),
and in particular the boundary codes 21, 27, 30 and the reserved 4 give
the cloud icon, 9 and 20 the rain icon, and 29 the thunder icon. -/
theorem weather_classifier_partition :
    (∀ w : Int, get_weather_icon w = iconForSpec w) ∧
    get_weather_icon 21 = CLOUD ∧ get_weather_icon 27 = CLOUD ∧
    get_weather_icon 30 = CLOUD ∧ get_weather_icon 4 = CLOUD ∧
    get_weather_icon 9 = UMBRELLA_WITH_RAIN_DROPS ∧
    get_weather_icon 20 = UMBRELLA_WITH_RAIN_DROPS ∧
    get_weather_icon 29 = THUNDER_CLOUD_AND_RAIN := by
  refine ⟨?_, by decide, by decide, by decide, by decide, by decide,
    by decide, by decide⟩
  intro w
  simp only [get_weather_icon, iconForSpec, List.mem_cons,
    List.mem_singleton, List.not_mem_nil, or_false]

/-- C3 (counterexample): codes outside `[0, 30]` are not rejected; the
classifier silently returns the default cloud icon for 31 and -1. -/
theorem weather_classifier_no_rejection :
    get_weather_icon 31 = CLOUD ∧ get_weather_icon (-1) = CLOUD := by
  decide

/-- C3 (amended): the Weather Classifier does not reject any code; for
every code outside `[0, 30]` it silently returns the default cloud icon
(in-range gap codes also default to cloud). -/
theorem weather_classifier_out_of_range_cloud :
    ∀ w : Int, (w < 0 ∨ 30 < w) → get_weather_icon w = CLOUD := by
  intro w h
  simp only [get_weather_icon, List.mem_cons, List.mem_singleton,
    List.not_mem_nil, or_false]
  split_ifs <;> first | rfl | omega

/-- Witness for C3 (amended): code 31 maps to the cloud icon. -/
theorem weather_classifier_out_of_range_cloud_witness :
    get_weather_icon 31 = CLOUD :=
  weather_classifier_out_of_range_cloud 31 (Or.inr (by decide))

/-- C9: the Weather Classifier is total over all integers: every code maps
to one of the eight weather glyphs without any error, and every code not
in a listed category maps to the cloud glyph. -/
theorem weather_classifier_total :
    ∀ w : Int,
      get_weather_icon w ∈ [CRESCENT_MOON, BLACK_SUN_WITH_RAYS,
        SUN_BEHIND_CLOUD, CLOUD, FOGGY, UMBRELLA_WITH_RAIN_DROPS,
        SNOWFLAKE, THUNDER_CLOUD_AND_RAIN] ∧
      (¬ listedCategory w → get_weather_icon w = CLOUD) := by
  intro w
  constructor
  · simp only [get_weather_icon]
    split_ifs <;> simp [List.mem_cons]
  · intro hn
    simp only [listedCategory] at hn
    simp only [get_weather_icon, List.mem_cons, List.mem_singleton,
      List.not_mem_nil, or_false]
    split_ifs <;> first | rfl | omega

/-- Witness for C9: the unlisted code 99 maps to a glyph, namely cloud. -/
theorem weather_classifier_total_witness :
    get_weather_icon 99 ∈ [CRESCENT_MOON, BLACK_SUN_WITH_RAYS,
      SUN_BEHIND_CLOUD, CLOUD, FOGGY, UMBRELLA_WITH_RAIN_DROPS,
      SNOWFLAKE, THUNDER_CLOUD_AND_RAIN] ∧
    get_weather_icon 99 = CLOUD :=
  ⟨(weather_classifier_total 99).1,
   (weather_classifier_total 99).2 (by unfold listedCategory; decide)⟩
